import Mathlib

/-!
Shallow embedding of `pkg/remote/trans/nphttp2/server_handler.go` from the
kitex repository: the per-stream task spawned inside `svrTransHandler.OnRead`
(metadata-handler chain, tracer bracket, inline method-name resolution,
endpoint invocation, terminal-status writes), together with
`svrTransHandler.OnActive` and `svrTransHandler.finishTracer`.

The task's observable behaviour is modelled as a trace of events in the order
the Go code performs them.  Contexts are abstract tokens (`Nat`); metadata
handlers are functions `Nat → Nat × Option String` mirroring
`OnReadStream(ctx) (ctx, err)`; the endpoint invocation's outcome is an input
(`InvokeResult`), since the business endpoint is injected.
-/

namespace ServerHandler

/-- Terminal status frame `{code, message}`, as produced by `status.New`. -/
structure Status where
  code : Nat
  message : String
  deriving DecidableEq, Repr

/-- Modelled from the spec: the gRPC `codes` package is outside `src/`;
`OK` is the success class. -/
def codeOK : Nat := 0

/-- Modelled from the spec: the gRPC `codes` package is outside `src/`;
`ResourceExhausted` is the class both malformed-name errors translate to. -/
def codeResourceExhausted : Nat := 8

/-- A metadata handler's `OnReadStream`: context in, context and optional
error out.  Contexts are abstract tokens, errors are strings. -/
abbrev MetaHandler : Type := Nat → Nat × Option String

/-- Outcome of the injected business endpoint invocation `t.inkHdlFunc`:
a nil error, a business error, or a runtime panic with some payload. -/
inductive InvokeResult where
  | ok
  | err (e : String)
  | panics (payload : String)
  deriving DecidableEq, Repr

/-- Observable actions of the per-stream task, in program order. -/
inductive Event where
  | setTransportGRPC
  | handlerRun (i : Nat)
  | tracerStart
  | setMethodName (s : String)
  | setPackageName (s : String)
  | setServiceName (s : String)
  | invokeEndpoint
  | writeStatus (st : Status)
  | logPanicWithStack (payload : String)
  | tracerFinish (err : Option String) (panicPayload : Option String)
  deriving DecidableEq, Repr

def Event.isWriteStatus : Event → Bool
  | Event.writeStatus _ => true
  | _ => false

def Event.isTracerFinish : Event → Bool
  | Event.tracerFinish _ _ => true
  | _ => false

def Event.isInvoke : Event → Bool
  | Event.invokeEndpoint => true
  | _ => false

/-- Go `strings.LastIndex` for a single character: index of the last
occurrence, `none` when absent (Go returns `-1`). -/
def lastIndexOf (c : Char) : List Char → Option Nat
  | [] => none
  | x :: xs =>
    match lastIndexOf c xs with
    | some i => some (i + 1)
    | none => if x = c then some 0 else none

/-- `if sm != "" && sm[0] == '/' { sm = sm[1:] }` from `OnRead`. -/
def stripSlash (l : List Char) : List Char :=
  match l with
  | [] => []
  | x :: xs => if x = '/' then xs else x :: xs

/-- Go `%q` applied to the raw method string (escaping of quote and
backslash; escaping of non-printable characters is elided, no claim
exercises it). -/
def goQuote (s : String) : String :=
  ⟨'"' :: s.data.foldr
    (fun c acc => if c = '"' ∨ c = '\\' then '\\' :: c :: acc else c :: acc) ['"']⟩

/-- Result of the inline method-name resolution in `OnRead`:
no `/` found, no `.` found before the last `/` (the method segment was
already recorded), or the full triple. -/
inductive ParseResult where
  | malformedMethod
  | malformedService (methodName : String)
  | okTriple (pkg svc meth : String)
  deriving DecidableEq, Repr

/-- The inline resolution from `OnRead`, on the character list of the raw
method string: strip one leading `/`, cut at the last `/` (`sm[pos+1:]` is
the method), then inside `sm[:pos]` cut at the last `.` (`sm[:idx]` is the
package, `sm[idx+1:pos]` the service).  The Go code binds `sm` once; here
`stripSlash raw` is repeated verbatim in its place. -/
def parseMethodList (raw : List Char) : ParseResult :=
  match lastIndexOf '/' (stripSlash raw) with
  | none => ParseResult.malformedMethod
  | some pos =>
    match lastIndexOf '.' ((stripSlash raw).take pos) with
    | none => ParseResult.malformedService ⟨(stripSlash raw).drop (pos + 1)⟩
    | some idx =>
      ParseResult.okTriple ⟨(stripSlash raw).take idx⟩
        ⟨((stripSlash raw).take pos).drop (idx + 1)⟩
        ⟨(stripSlash raw).drop (pos + 1)⟩

/-- The inline resolution from `OnRead` on the raw method string. -/
def parseMethodName (raw : String) : ParseResult :=
  parseMethodList raw.data

/-- The `StreamingMetaHandlers` loop: run handlers in order threading the
context, stop at the first error.  `i` numbers the handlers; returns the
`handlerRun` events, the final context, and the first error if any. -/
def runHandlersFrom (i : Nat) : List MetaHandler → Nat → List Event × Nat × Option String
  | [], ctx => ([], ctx, none)
  | h :: hs, ctx =>
    match h ctx with
    | (c2, some e) => ([Event.handlerRun i], c2, some e)
    | (c2, none) =>
      match runHandlersFrom (i + 1) hs c2 with
      | (evs, c3, r) => (Event.handlerRun i :: evs, c3, r)

/-- Events of the stream task from method resolution onward (the region
guarded by the deferred `recover`/`finishTracer` block).  Note the deferred
`finishTracer` receives the *outer* `err` variable, which is `nil` on every
path reaching this region (the endpoint's error is a shadowing `err :=`),
and the panic payload only on the panic path. -/
def parsePhase (method : String) (inv : InvokeResult) (convert : String → Status) :
    List Event :=
  match parseMethodName method with
  | ParseResult.malformedMethod =>
      [Event.writeStatus ⟨codeResourceExhausted, "malformed method name: " ++ goQuote method⟩,
       Event.tracerFinish none none]
  | ParseResult.malformedService mn =>
      [Event.setMethodName mn,
       Event.writeStatus
         ⟨codeResourceExhausted, "malformed package and service name: " ++ goQuote method⟩,
       Event.tracerFinish none none]
  | ParseResult.okTriple p s m =>
      Event.setMethodName m :: Event.setPackageName p :: Event.setServiceName s ::
        Event.invokeEndpoint ::
        match inv with
        | InvokeResult.ok =>
            [Event.writeStatus ⟨codeOK, ""⟩, Event.tracerFinish none none]
        | InvokeResult.err e =>
            [Event.writeStatus (convert e), Event.tracerFinish none none]
        | InvokeResult.panics pl =>
            [Event.logPanicWithStack pl, Event.tracerFinish none (some pl)]

/-- The body of the goroutine `OnRead` spawns per stream: tag the transport
protocol, run the metadata-handler chain (first failure writes its
translated status and returns — before `startTracer` and before the
deferred `finishTracer` is installed), then start the tracer and run the
guarded region.  `convert` stands for the injected `convertFromKitexToGrpc`
translation. -/
def streamTask (handlers : List MetaHandler) (method : String)
    (inv : InvokeResult) (convert : String → Status) (ctx0 : Nat) : List Event :=
  Event.setTransportGRPC ::
    match runHandlersFrom 0 handlers ctx0 with
    | (hevs, _, some e) => hevs ++ [Event.writeStatus (convert e)]
    | (hevs, _, none) => hevs ++ Event.tracerStart :: parsePhase method inv convert

/-- The invocation record's three name fields.  `none` means never set
(`SetXxxName` was not called for that field). -/
structure Invocation where
  packageName : Option String
  serviceName : Option String
  methodName : Option String
  deriving DecidableEq, Repr

def applyEvent (r : Invocation) : Event → Invocation
  | Event.setMethodName s => { r with methodName := some s }
  | Event.setPackageName s => { r with packageName := some s }
  | Event.setServiceName s => { r with serviceName := some s }
  | _ => r

/-- The invocation record obtained by replaying a task trace over a fresh
(unset) record. -/
def invocationAfter (tr : List Event) : Invocation :=
  tr.foldl applyEvent ⟨none, none, none⟩

/-- Modelled from the spec: `rpcinfo` stats live outside `src/`; the mutable
view carries the recorded panic payload and cumulative fields (collapsed to
one counter), and `Reset` clears the mutable fields. -/
structure RPCStats where
  panicked : Option String
  recorded : Nat
  deriving DecidableEq, Repr

def RPCStats.reset (_ : RPCStats) : RPCStats := ⟨none, 0⟩

/-- Operations `finishTracer` performs on the call's stats and tracers. -/
inductive FinOp where
  | setPanicked (p : String)
  | doFinish (err : Option String)
  | resetStats
  deriving DecidableEq, Repr

/-- `svrTransHandler.finishTracer`: return immediately when the mutable
stats view is nil; otherwise record a panic payload if one was captured,
run `TracerCtl.DoFinish` with the observed error, then reset the stats. -/
def finishTracer (statsView : Option RPCStats) (err : Option String)
    (panicErr : Option String) : Option RPCStats × List FinOp :=
  match statsView with
  | none => (none, [])
  | some st =>
    match panicErr with
    | some p =>
        (some ({ st with panicked := some p }).reset,
         [FinOp.setPanicked p, FinOp.doFinish err, FinOp.resetStats])
    | none => (some st.reset, [FinOp.doFinish err, FinOp.resetStats])

/-- Modelled from the spec: `grpcTransport.Infinity` is outside `src/`; an
unbounded read timeout versus a finite one. -/
inductive ReadTimeout where
  | finite (millis : Nat)
  | infinity
  deriving DecidableEq, Repr

structure Conn where
  readTimeout : ReadTimeout
  deriving DecidableEq, Repr

/-- `svrTransHandler.OnActive`: set the connection's read timeout to
`Infinity`, return the context unchanged and a nil error. -/
def OnActive (ctx : Nat) (conn : Conn) : Nat × Conn × Option String :=
  (ctx, { conn with readTimeout := ReadTimeout.infinity }, none)

/-! ## Supporting lemmas -/

theorem lastIndexOf_eq_none {c : Char} {l : List Char} (h : c ∉ l) :
    lastIndexOf c l = none := by
  induction l with
  | nil => rfl
  | cons x xs ih =>
    have hx : x ≠ c := fun he => h (he ▸ List.mem_cons_self x xs)
    have hxs : c ∉ xs := fun hm => h (List.mem_cons_of_mem x hm)
    simp [lastIndexOf, ih hxs, hx]

theorem lastIndexOf_append {c : Char} {l2 : List Char} (l1 : List Char) (h : c ∉ l2) :
    lastIndexOf c (l1 ++ c :: l2) = some l1.length := by
  induction l1 with
  | nil => simp [lastIndexOf, lastIndexOf_eq_none h]
  | cons x xs ih => simp [lastIndexOf, ih]

theorem take_len_append (l1 l2 : List Char) : (l1 ++ l2).take l1.length = l1 := by
  induction l1 with
  | nil => rfl
  | cons x xs ih => simp [ih]

theorem drop_len_succ_append (l1 l2 : List Char) (c : Char) :
    (l1 ++ c :: l2).drop (l1.length + 1) = l2 := by
  induction l1 with
  | nil => rfl
  | cons x xs ih => simp [ih]

theorem runHandlersFrom_range (hs : List MetaHandler) :
    ∀ (i ctx : Nat), ∃ k, (runHandlersFrom i hs ctx).1 =
      (List.range' i k).map Event.handlerRun := by
  induction hs with
  | nil => intro i ctx; exact ⟨0, rfl⟩
  | cons h hs ih =>
    intro i ctx
    match hh : h ctx with
    | (c2, some e) =>
      refine ⟨1, ?_⟩
      simp [runHandlersFrom, hh, List.range']
    | (c2, none) =>
      obtain ⟨k, hk⟩ := ih (i + 1) c2
      refine ⟨k + 1, ?_⟩
      match hrec : runHandlersFrom (i + 1) hs c2 with
      | (evs, c3, r) =>
        simp only [runHandlersFrom, hh, hrec]
        rw [hrec] at hk
        simp only at hk
        simp [List.range', hk]

theorem runHandlersFrom_mem {i ctx : Nat} {hs : List MetaHandler} {ev : Event}
    (h : ev ∈ (runHandlersFrom i hs ctx).1) : ∃ j, ev = Event.handlerRun j := by
  obtain ⟨k, hk⟩ := runHandlersFrom_range hs i ctx
  rw [hk] at h
  obtain ⟨j, _, rfl⟩ := List.mem_map.mp h
  exact ⟨j, rfl⟩

theorem countP_runHandlersFrom (p : Event → Bool)
    (hp : ∀ j, p (Event.handlerRun j) = false) (i ctx : Nat) (hs : List MetaHandler) :
    (runHandlersFrom i hs ctx).1.countP p = 0 := by
  rw [List.countP_eq_zero]
  intro ev hev
  obtain ⟨j, rfl⟩ := runHandlersFrom_mem hev
  simp [hp]

theorem countP_of_fst {i ctx : Nat} {hs : List MetaHandler} {evs : List Event}
    {c1 : Nat} {r : Option String} (p : Event → Bool)
    (hp : ∀ j, p (Event.handlerRun j) = false)
    (hr : runHandlersFrom i hs ctx = (evs, c1, r)) : evs.countP p = 0 := by
  have := countP_runHandlersFrom p hp i ctx hs
  rw [hr] at this
  exact this

theorem foldl_handlerRuns (r : Invocation) {evs : List Event}
    (h : ∀ ev ∈ evs, ∃ j, ev = Event.handlerRun j) : evs.foldl applyEvent r = r := by
  induction evs generalizing r with
  | nil => rfl
  | cons ev tl ih =>
    obtain ⟨j, rfl⟩ := h ev (List.mem_cons_self ev tl)
    exact ih r fun e he => h e (List.mem_cons_of_mem _ he)

theorem streamTask_handler_ok {handlers : List MetaHandler} {ctx : Nat}
    {evs : List Event} {c1 : Nat}
    (hr : runHandlersFrom 0 handlers ctx = (evs, c1, none))
    (method : String) (inv : InvokeResult) (cv : String → Status) :
    streamTask handlers method inv cv ctx =
      Event.setTransportGRPC :: evs ++ Event.tracerStart :: parsePhase method inv cv := by
  unfold streamTask
  rw [hr]
  rfl

theorem streamTask_handler_err {handlers : List MetaHandler} {ctx : Nat}
    {evs : List Event} {c1 : Nat} {e : String}
    (hr : runHandlersFrom 0 handlers ctx = (evs, c1, some e))
    (method : String) (inv : InvokeResult) (cv : String → Status) :
    streamTask handlers method inv cv ctx =
      Event.setTransportGRPC :: evs ++ [Event.writeStatus (cv e)] := by
  unfold streamTask
  rw [hr]
  rfl

theorem stripSlash_cons_slash (xs : List Char) : stripSlash ('/' :: xs) = xs := by
  simp [stripSlash]

theorem stripSlash_cons_ne {x : Char} (xs : List Char) (h : x ≠ '/') :
    stripSlash (x :: xs) = x :: xs := by
  simp [stripSlash, h]

theorem parseMethodList_split {raw l1 m : List Char}
    (hstrip : stripSlash raw = l1 ++ '/' :: m) (hm : '/' ∉ m)
    {p s : List Char} (hl1 : l1 = p ++ '.' :: s) (hs2 : '.' ∉ s) :
    parseMethodList raw = ParseResult.okTriple ⟨p⟩ ⟨s⟩ ⟨m⟩ := by
  have h1 : lastIndexOf '/' (l1 ++ '/' :: m) = some l1.length := lastIndexOf_append l1 hm
  have h2 : lastIndexOf '.' l1 = some p.length := by
    rw [hl1]; exact lastIndexOf_append p hs2
  have h3 : (l1 ++ '/' :: m).take l1.length = l1 := take_len_append l1 ('/' :: m)
  have h4 : (l1 ++ '/' :: m).drop (l1.length + 1) = m := drop_len_succ_append l1 m '/'
  have h5 : (l1 ++ '/' :: m).take p.length = p := by
    rw [hl1, List.append_assoc, List.cons_append]
    exact take_len_append p _
  have h6 : l1.drop (p.length + 1) = s := by
    rw [hl1]; exact drop_len_succ_append p s '.'
  simp only [parseMethodList, hstrip, h1, h3, h2, h4, h5, h6]

theorem invocationAfter_cons_append (evs rest : List Event)
    (h : ∀ ev ∈ evs, ∃ j, ev = Event.handlerRun j) :
    invocationAfter (Event.setTransportGRPC :: evs ++ rest) =
      rest.foldl applyEvent ⟨none, none, none⟩ := by
  have h0 : invocationAfter (Event.setTransportGRPC :: evs ++ rest) =
      (evs ++ rest).foldl applyEvent ⟨none, none, none⟩ := rfl
  rw [h0, List.foldl_append, foldl_handlerRuns _ h]

theorem countP_trace (p : Event → Bool) (hp0 : p Event.setTransportGRPC = false)
    {evs : List Event} (h : evs.countP p = 0) (rest : List Event) :
    (Event.setTransportGRPC :: evs ++ rest).countP p = rest.countP p := by
  simp [List.countP_cons, List.countP_append, h, hp0]

theorem mem_of_runHandlers {handlers : List MetaHandler} {ctx c1 : Nat}
    {evs : List Event} {r : Option String}
    (hr : runHandlersFrom 0 handlers ctx = (evs, c1, r)) :
    ∀ ev ∈ evs, ∃ j, ev = Event.handlerRun j := fun _ hev =>
  runHandlersFrom_mem (by rw [hr]; exact hev)

/-! ## Claims -/

/-- Claim C4: every method string of the form `pkg.Service/Method`, with or
without a single leading `/`, resolves to the triple
`{package = pkg, service = Service, method = Method}` (the same triple for
both forms; the cuts are the last `/` and, before it, the last `.`), and
the stream task records that triple onto the invocation record. -/
theorem C4_parse_records_triple (p s m : List Char)
    (hp : '/' ∉ p) (_hsvc : '/' ∉ s) (hdot : '.' ∉ s) (hm : '/' ∉ m)
    (handlers : List MetaHandler) (cv : String → Status) (ctx : Nat)
    (evs : List Event) (c1 : Nat)
    (hr : runHandlersFrom 0 handlers ctx = (evs, c1, none)) :
    parseMethodName ⟨p ++ '.' :: s ++ '/' :: m⟩ = ParseResult.okTriple ⟨p⟩ ⟨s⟩ ⟨m⟩ ∧
    parseMethodName ⟨'/' :: (p ++ '.' :: s ++ '/' :: m)⟩ = ParseResult.okTriple ⟨p⟩ ⟨s⟩ ⟨m⟩ ∧
    invocationAfter (streamTask handlers ⟨'/' :: (p ++ '.' :: s ++ '/' :: m)⟩
        InvokeResult.ok cv ctx) = ⟨some ⟨p⟩, some ⟨s⟩, some ⟨m⟩⟩ := by
  have hassoc : (p ++ '.' :: s) ++ '/' :: m = p ++ '.' :: s ++ '/' :: m := by simp
  have hstrip1 : stripSlash (p ++ '.' :: s ++ '/' :: m) = (p ++ '.' :: s) ++ '/' :: m := by
    rw [← hassoc]
    cases p with
    | nil => exact stripSlash_cons_ne _ (by decide)
    | cons a as =>
      have ha : a ≠ '/' := fun hEq => hp (by simp [hEq])
      exact stripSlash_cons_ne _ ha
  have h1 : parseMethodName ⟨p ++ '.' :: s ++ '/' :: m⟩ =
      ParseResult.okTriple ⟨p⟩ ⟨s⟩ ⟨m⟩ :=
    parseMethodList_split hstrip1 hm rfl hdot
  have hstrip2 : stripSlash ('/' :: (p ++ '.' :: s ++ '/' :: m)) =
      (p ++ '.' :: s) ++ '/' :: m :=
    (stripSlash_cons_slash _).trans hassoc.symm
  have h2 : parseMethodName ⟨'/' :: (p ++ '.' :: s ++ '/' :: m)⟩ =
      ParseResult.okTriple ⟨p⟩ ⟨s⟩ ⟨m⟩ :=
    parseMethodList_split hstrip2 hm rfl hdot
  refine ⟨h1, h2, ?_⟩
  rw [streamTask_handler_ok hr _ InvokeResult.ok cv,
      invocationAfter_cons_append _ _ (mem_of_runHandlers hr)]
  simp only [parsePhase, h2]
  rfl

/-- Claim C5: a method string with no `/` after stripping one optional
leading `/` fails resolution as a malformed method name; a
resource-exhausted status quoting the raw string is written, and the
endpoint is never invoked. -/
theorem C5_malformed_method (raw : String)
    (hnone : lastIndexOf '/' (stripSlash raw.data) = none)
    (handlers : List MetaHandler) (inv : InvokeResult) (cv : String → Status)
    (ctx : Nat) (evs : List Event) (c1 : Nat)
    (hr : runHandlersFrom 0 handlers ctx = (evs, c1, none)) :
    parseMethodName raw = ParseResult.malformedMethod ∧
    streamTask handlers raw inv cv ctx =
      Event.setTransportGRPC :: evs ++
        [Event.tracerStart,
         Event.writeStatus ⟨codeResourceExhausted, "malformed method name: " ++ goQuote raw⟩,
         Event.tracerFinish none none] ∧
    (streamTask handlers raw inv cv ctx).countP Event.isInvoke = 0 := by
  have hparse : parseMethodName raw = ParseResult.malformedMethod := by
    simp only [parseMethodName, parseMethodList, hnone]
  have hpp : parsePhase raw inv cv =
      [Event.writeStatus ⟨codeResourceExhausted, "malformed method name: " ++ goQuote raw⟩,
       Event.tracerFinish none none] := by
    simp only [parsePhase, hparse]
  have htr := streamTask_handler_ok hr raw inv cv
  rw [hpp] at htr
  refine ⟨hparse, htr, ?_⟩
  rw [htr, countP_trace Event.isInvoke rfl
    (countP_of_fst Event.isInvoke (fun _ => rfl) hr)]
  rfl

/-- Claim C6: a method string whose part before the last `/` contains no `.`
fails resolution as a malformed service name: a resource-exhausted status
quoting the raw string is written, the endpoint is never invoked, and the
tracer-finish step still runs exactly once. -/
theorem C6_malformed_service (raw : String) (pos : Nat)
    (hpos : lastIndexOf '/' (stripSlash raw.data) = some pos)
    (hnodot : lastIndexOf '.' ((stripSlash raw.data).take pos) = none)
    (handlers : List MetaHandler) (inv : InvokeResult) (cv : String → Status)
    (ctx : Nat) (evs : List Event) (c1 : Nat)
    (hr : runHandlersFrom 0 handlers ctx = (evs, c1, none)) :
    parseMethodName raw = ParseResult.malformedService ⟨(stripSlash raw.data).drop (pos + 1)⟩ ∧
    streamTask handlers raw inv cv ctx =
      Event.setTransportGRPC :: evs ++
        [Event.tracerStart,
         Event.setMethodName ⟨(stripSlash raw.data).drop (pos + 1)⟩,
         Event.writeStatus
           ⟨codeResourceExhausted, "malformed package and service name: " ++ goQuote raw⟩,
         Event.tracerFinish none none] ∧
    (streamTask handlers raw inv cv ctx).countP Event.isInvoke = 0 ∧
    (streamTask handlers raw inv cv ctx).countP Event.isTracerFinish = 1 := by
  have hparse : parseMethodName raw =
      ParseResult.malformedService ⟨(stripSlash raw.data).drop (pos + 1)⟩ := by
    simp only [parseMethodName, parseMethodList, hpos, hnodot]
  have hpp : parsePhase raw inv cv =
      [Event.setMethodName ⟨(stripSlash raw.data).drop (pos + 1)⟩,
       Event.writeStatus
         ⟨codeResourceExhausted, "malformed package and service name: " ++ goQuote raw⟩,
       Event.tracerFinish none none] := by
    simp only [parsePhase, hparse]
  have htr := streamTask_handler_ok hr raw inv cv
  rw [hpp] at htr
  refine ⟨hparse, htr, ?_, ?_⟩
  · rw [htr, countP_trace Event.isInvoke rfl
      (countP_of_fst Event.isInvoke (fun _ => rfl) hr)]
    rfl
  · rw [htr, countP_trace Event.isTracerFinish rfl
      (countP_of_fst Event.isTracerFinish (fun _ => rfl) hr)]
    rfl

/-- Claim C8: resolution performs no emptiness validation: whenever the last
`/` and, before it, the last `.` are both found, the three (possibly empty)
segments are returned with no malformed-name error; in particular `"./"`
resolves to three empty strings, which the stream task records. -/
theorem C8_no_emptiness_validation (raw : String) (pos idx : Nat)
    (hpos : lastIndexOf '/' (stripSlash raw.data) = some pos)
    (hidx : lastIndexOf '.' ((stripSlash raw.data).take pos) = some idx) :
    parseMethodName raw = ParseResult.okTriple
      ⟨(stripSlash raw.data).take idx⟩
      ⟨((stripSlash raw.data).take pos).drop (idx + 1)⟩
      ⟨(stripSlash raw.data).drop (pos + 1)⟩ ∧
    parseMethodName "./" = ParseResult.okTriple "" "" "" ∧
    invocationAfter (streamTask [] "./" InvokeResult.ok (fun e => ⟨13, e⟩) 0) =
      ⟨some "", some "", some ""⟩ := by
  refine ⟨?_, by decide, by decide⟩
  simp only [parseMethodName, parseMethodList, hpos, hidx]

/-- Claim C9: when resolution fails with a malformed service name, the
invocation record's method name has already been set to the parsed method
segment before the failure status is written, while package and service
names remain unset. -/
theorem C9_method_set_on_service_failure (raw : String) (pos : Nat)
    (hpos : lastIndexOf '/' (stripSlash raw.data) = some pos)
    (hnodot : lastIndexOf '.' ((stripSlash raw.data).take pos) = none)
    (handlers : List MetaHandler) (inv : InvokeResult) (cv : String → Status)
    (ctx : Nat) (evs : List Event) (c1 : Nat)
    (hr : runHandlersFrom 0 handlers ctx = (evs, c1, none)) :
    streamTask handlers raw inv cv ctx =
      Event.setTransportGRPC :: evs ++
        [Event.tracerStart,
         Event.setMethodName ⟨(stripSlash raw.data).drop (pos + 1)⟩,
         Event.writeStatus
           ⟨codeResourceExhausted, "malformed package and service name: " ++ goQuote raw⟩,
         Event.tracerFinish none none] ∧
    invocationAfter (streamTask handlers raw inv cv ctx) =
      ⟨none, none, some ⟨(stripSlash raw.data).drop (pos + 1)⟩⟩ := by
  have hparse : parseMethodName raw =
      ParseResult.malformedService ⟨(stripSlash raw.data).drop (pos + 1)⟩ := by
    simp only [parseMethodName, parseMethodList, hpos, hnodot]
  have hpp : parsePhase raw inv cv =
      [Event.setMethodName ⟨(stripSlash raw.data).drop (pos + 1)⟩,
       Event.writeStatus
         ⟨codeResourceExhausted, "malformed package and service name: " ++ goQuote raw⟩,
       Event.tracerFinish none none] := by
    simp only [parsePhase, hparse]
  have htr := streamTask_handler_ok hr raw inv cv
  rw [hpp] at htr
  refine ⟨htr, ?_⟩
  rw [htr, invocationAfter_cons_append _ _ (mem_of_runHandlers hr)]
  rfl

/-- Claim C1: when the endpoint invocation panics, the stream task recovers
it: the fault is logged with a stack trace, the tracer finish step is
invoked exactly once carrying the fault payload, and no terminal status is
written to the peer. -/
theorem C1_panic_contained (handlers : List MetaHandler) (raw : String)
    (pl : String) (cv : String → Status) (ctx : Nat) (evs : List Event)
    (c1 : Nat) (p s m : String)
    (hr : runHandlersFrom 0 handlers ctx = (evs, c1, none))
    (hparse : parseMethodName raw = ParseResult.okTriple p s m) :
    streamTask handlers raw (InvokeResult.panics pl) cv ctx =
      Event.setTransportGRPC :: evs ++
        [Event.tracerStart, Event.setMethodName m, Event.setPackageName p,
         Event.setServiceName s, Event.invokeEndpoint,
         Event.logPanicWithStack pl, Event.tracerFinish none (some pl)] ∧
    (streamTask handlers raw (InvokeResult.panics pl) cv ctx).countP
      Event.isTracerFinish = 1 ∧
    (streamTask handlers raw (InvokeResult.panics pl) cv ctx).countP
      Event.isWriteStatus = 0 := by
  have hpp : parsePhase raw (InvokeResult.panics pl) cv =
      [Event.setMethodName m, Event.setPackageName p, Event.setServiceName s,
       Event.invokeEndpoint, Event.logPanicWithStack pl,
       Event.tracerFinish none (some pl)] := by
    simp only [parsePhase, hparse]
  have htr := streamTask_handler_ok hr raw (InvokeResult.panics pl) cv
  rw [hpp] at htr
  refine ⟨htr, ?_, ?_⟩
  · rw [htr, countP_trace Event.isTracerFinish rfl
      (countP_of_fst Event.isTracerFinish (fun _ => rfl) hr)]
    rfl
  · rw [htr, countP_trace Event.isWriteStatus rfl
      (countP_of_fst Event.isWriteStatus (fun _ => rfl) hr)]
    rfl

/-- Claim C2 (amended): when some metadata handler fails, the first failing
handler short-circuits the call: its translated status is the one written,
no later handler runs, the endpoint is never invoked — and the tracer
finish step does not run at all (the tracer was never started), rather
than running once as originally claimed. -/
theorem C2_short_circuit (handlers : List MetaHandler) (raw : String)
    (inv : InvokeResult) (cv : String → Status) (ctx : Nat) (evs : List Event)
    (c1 : Nat) (e : String)
    (hr : runHandlersFrom 0 handlers ctx = (evs, c1, some e)) :
    streamTask handlers raw inv cv ctx =
      Event.setTransportGRPC :: evs ++ [Event.writeStatus (cv e)] ∧
    (∃ k, evs = (List.range' 0 k).map Event.handlerRun) ∧
    (streamTask handlers raw inv cv ctx).countP Event.isInvoke = 0 ∧
    (streamTask handlers raw inv cv ctx).countP Event.isTracerFinish = 0 := by
  have htr := streamTask_handler_err hr raw inv cv
  refine ⟨htr, ?_, ?_, ?_⟩
  · obtain ⟨k, hk⟩ := runHandlersFrom_range handlers 0 ctx
    rw [hr] at hk
    exact ⟨k, hk⟩
  · rw [htr, countP_trace Event.isInvoke rfl
      (countP_of_fst Event.isInvoke (fun _ => rfl) hr)]
    rfl
  · rw [htr, countP_trace Event.isTracerFinish rfl
      (countP_of_fst Event.isTracerFinish (fun _ => rfl) hr)]
    rfl

/-- Claim C2 counterexample: a stream whose single metadata handler fails.
The task's whole trace is the handler run followed by the translated status
write; the tracer finish step runs zero times, not exactly once as the
claim states. -/
theorem C2_counterexample :
    streamTask [fun c => (c, some "boom")] "/p.S/M" InvokeResult.ok
        (fun e => ⟨13, e⟩) 0 =
      [Event.setTransportGRPC, Event.handlerRun 0, Event.writeStatus ⟨13, "boom"⟩] ∧
    (streamTask [fun c => (c, some "boom")] "/p.S/M" InvokeResult.ok
        (fun e => ⟨13, e⟩) 0).countP Event.isTracerFinish = 0 :=
  ⟨rfl, rfl⟩

/-- Claim C3: when handshake and resolution succeed and the invocation
returns normally, exactly one terminal status is written — OK with empty
message on success, the translated business error (message preserved, given
the translator preserves messages) otherwise — and the tracer finish step
runs exactly once, after the status write. -/
theorem C3_normal_return (handlers : List MetaHandler) (raw : String)
    (inv : InvokeResult) (cv : String → Status) (ctx : Nat) (evs : List Event)
    (c1 : Nat) (p s m : String)
    (hr : runHandlersFrom 0 handlers ctx = (evs, c1, none))
    (hparse : parseMethodName raw = ParseResult.okTriple p s m)
    (hmsg : ∀ e, (cv e).message = e)
    (hnp : ∀ pl, inv ≠ InvokeResult.panics pl) :
    ∃ st : Status,
      streamTask handlers raw inv cv ctx =
        Event.setTransportGRPC :: evs ++
          [Event.tracerStart, Event.setMethodName m, Event.setPackageName p,
           Event.setServiceName s, Event.invokeEndpoint,
           Event.writeStatus st, Event.tracerFinish none none] ∧
      (inv = InvokeResult.ok → st = ⟨codeOK, ""⟩) ∧
      (∀ e, inv = InvokeResult.err e → st = cv e ∧ st.message = e) ∧
      (streamTask handlers raw inv cv ctx).countP Event.isWriteStatus = 1 ∧
      (streamTask handlers raw inv cv ctx).countP Event.isTracerFinish = 1 := by
  cases inv with
  | panics pl => exact absurd rfl (hnp pl)
  | ok =>
    have hpp : parsePhase raw InvokeResult.ok cv =
        [Event.setMethodName m, Event.setPackageName p, Event.setServiceName s,
         Event.invokeEndpoint, Event.writeStatus ⟨codeOK, ""⟩,
         Event.tracerFinish none none] := by
      simp only [parsePhase, hparse]
    have htr := streamTask_handler_ok hr raw InvokeResult.ok cv
    rw [hpp] at htr
    refine ⟨⟨codeOK, ""⟩, htr, fun _ => rfl, fun e he => InvokeResult.noConfusion he, ?_, ?_⟩
    · rw [htr, countP_trace Event.isWriteStatus rfl
        (countP_of_fst Event.isWriteStatus (fun _ => rfl) hr)]
      rfl
    · rw [htr, countP_trace Event.isTracerFinish rfl
        (countP_of_fst Event.isTracerFinish (fun _ => rfl) hr)]
      rfl
  | err e =>
    have hpp : parsePhase raw (InvokeResult.err e) cv =
        [Event.setMethodName m, Event.setPackageName p, Event.setServiceName s,
         Event.invokeEndpoint, Event.writeStatus (cv e),
         Event.tracerFinish none none] := by
      simp only [parsePhase, hparse]
    have htr := streamTask_handler_ok hr raw (InvokeResult.err e) cv
    rw [hpp] at htr
    refine ⟨cv e, htr, fun h => InvokeResult.noConfusion h, fun e2 he2 => ?_, ?_, ?_⟩
    · injection he2 with h2
      subst h2
      exact ⟨rfl, hmsg e⟩
    · rw [htr, countP_trace Event.isWriteStatus rfl
        (countP_of_fst Event.isWriteStatus (fun _ => rfl) hr)]
      rfl
    · rw [htr, countP_trace Event.isTracerFinish rfl
        (countP_of_fst Event.isTracerFinish (fun _ => rfl) hr)]
      rfl

/-- Claim C7: `OnActive` sets the connection's read timeout to the
unbounded value, returns the given context unchanged, and returns no
error. -/
theorem C7_onActive (ctx : Nat) (conn : Conn) :
    OnActive ctx conn = (ctx, ⟨ReadTimeout.infinity⟩, none) := rfl

/-- Claim C10: `finishTracer` is a no-op when the mutable stats view is nil
(neither finish hooks nor reset); otherwise it first records any panic
payload into the stats, then runs the finish hooks with the observed error,
and resets the stats only afterwards. -/
theorem C10_finishTracer (err : Option String) (st : RPCStats) :
    (∀ pe : Option String, finishTracer none err pe = (none, [])) ∧
    finishTracer (some st) err none =
      (some ⟨none, 0⟩, [FinOp.doFinish err, FinOp.resetStats]) ∧
    (∀ p : String, finishTracer (some st) err (some p) =
      (some ⟨none, 0⟩, [FinOp.setPanicked p, FinOp.doFinish err, FinOp.resetStats])) :=
  ⟨fun _ => rfl, rfl, fun _ => rfl⟩

/-! ## Witnesses -/

theorem C1_panic_contained_witness :
    streamTask [] "/p.S/M" (InvokeResult.panics "boom") (fun e => ⟨13, e⟩) 0 =
      Event.setTransportGRPC :: [] ++
        [Event.tracerStart, Event.setMethodName "M", Event.setPackageName "p",
         Event.setServiceName "S", Event.invokeEndpoint,
         Event.logPanicWithStack "boom", Event.tracerFinish none (some "boom")] ∧
    (streamTask [] "/p.S/M" (InvokeResult.panics "boom") (fun e => ⟨13, e⟩) 0).countP
      Event.isTracerFinish = 1 ∧
    (streamTask [] "/p.S/M" (InvokeResult.panics "boom") (fun e => ⟨13, e⟩) 0).countP
      Event.isWriteStatus = 0 :=
  C1_panic_contained [] "/p.S/M" "boom" (fun e => ⟨13, e⟩) 0 [] 0 "p" "S" "M"
    rfl (by decide)

theorem C2_short_circuit_witness :
    streamTask [fun c => (c + 1, none), fun _ => (5, some "bad"), fun c => (c, none)]
        "/p.S/M" InvokeResult.ok (fun e => ⟨13, e⟩) 0 =
      Event.setTransportGRPC :: [Event.handlerRun 0, Event.handlerRun 1] ++
        [Event.writeStatus ⟨13, "bad"⟩] ∧
    (∃ k, [Event.handlerRun 0, Event.handlerRun 1] =
      (List.range' 0 k).map Event.handlerRun) ∧
    (streamTask [fun c => (c + 1, none), fun _ => (5, some "bad"), fun c => (c, none)]
        "/p.S/M" InvokeResult.ok (fun e => ⟨13, e⟩) 0).countP Event.isInvoke = 0 ∧
    (streamTask [fun c => (c + 1, none), fun _ => (5, some "bad"), fun c => (c, none)]
        "/p.S/M" InvokeResult.ok (fun e => ⟨13, e⟩) 0).countP Event.isTracerFinish = 0 :=
  C2_short_circuit
    [fun c => (c + 1, none), fun _ => (5, some "bad"), fun c => (c, none)]
    "/p.S/M" InvokeResult.ok (fun e => ⟨13, e⟩) 0
    [Event.handlerRun 0, Event.handlerRun 1] 5 "bad" rfl

theorem C3_normal_return_witness :
    ∃ st : Status,
      streamTask [] "/echo.EchoService/Echo" InvokeResult.ok (fun e => ⟨13, e⟩) 0 =
        Event.setTransportGRPC :: [] ++
          [Event.tracerStart, Event.setMethodName "Echo",
           Event.setPackageName "echo", Event.setServiceName "EchoService",
           Event.invokeEndpoint, Event.writeStatus st, Event.tracerFinish none none] ∧
      (InvokeResult.ok = InvokeResult.ok → st = ⟨codeOK, ""⟩) ∧
      (∀ e, InvokeResult.ok = InvokeResult.err e → st = ⟨13, e⟩ ∧ st.message = e) ∧
      (streamTask [] "/echo.EchoService/Echo" InvokeResult.ok
        (fun e => ⟨13, e⟩) 0).countP Event.isWriteStatus = 1 ∧
      (streamTask [] "/echo.EchoService/Echo" InvokeResult.ok
        (fun e => ⟨13, e⟩) 0).countP Event.isTracerFinish = 1 :=
  C3_normal_return [] "/echo.EchoService/Echo" InvokeResult.ok (fun e => ⟨13, e⟩) 0
    [] 0 "echo" "EchoService" "Echo" rfl (by decide) (fun _ => rfl)
    (fun _ h => InvokeResult.noConfusion h)

theorem C4_parse_records_triple_witness :
    parseMethodName ⟨"echo".data ++ '.' :: "EchoService".data ++ '/' :: "Echo".data⟩ =
      ParseResult.okTriple ⟨"echo".data⟩ ⟨"EchoService".data⟩ ⟨"Echo".data⟩ ∧
    parseMethodName ⟨'/' :: ("echo".data ++ '.' :: "EchoService".data ++ '/' :: "Echo".data)⟩ =
      ParseResult.okTriple ⟨"echo".data⟩ ⟨"EchoService".data⟩ ⟨"Echo".data⟩ ∧
    invocationAfter (streamTask []
        ⟨'/' :: ("echo".data ++ '.' :: "EchoService".data ++ '/' :: "Echo".data)⟩
        InvokeResult.ok (fun e => ⟨13, e⟩) 0) =
      ⟨some ⟨"echo".data⟩, some ⟨"EchoService".data⟩, some ⟨"Echo".data⟩⟩ :=
  C4_parse_records_triple "echo".data "EchoService".data "Echo".data
    (by decide) (by decide) (by decide) (by decide) [] (fun e => ⟨13, e⟩) 0 [] 0 rfl

theorem C5_malformed_method_witness :
    parseMethodName "BadMethod" = ParseResult.malformedMethod ∧
    streamTask [] "BadMethod" InvokeResult.ok (fun e => ⟨13, e⟩) 0 =
      Event.setTransportGRPC :: [] ++
        [Event.tracerStart,
         Event.writeStatus
           ⟨codeResourceExhausted, "malformed method name: " ++ goQuote "BadMethod"⟩,
         Event.tracerFinish none none] ∧
    (streamTask [] "BadMethod" InvokeResult.ok (fun e => ⟨13, e⟩) 0).countP
      Event.isInvoke = 0 :=
  C5_malformed_method "BadMethod" (by decide) [] InvokeResult.ok (fun e => ⟨13, e⟩)
    0 [] 0 rfl

theorem C6_malformed_service_witness :
    parseMethodName "/noservice/Method" =
      ParseResult.malformedService ⟨(stripSlash "/noservice/Method".data).drop (9 + 1)⟩ ∧
    streamTask [] "/noservice/Method" InvokeResult.ok (fun e => ⟨13, e⟩) 0 =
      Event.setTransportGRPC :: [] ++
        [Event.tracerStart,
         Event.setMethodName ⟨(stripSlash "/noservice/Method".data).drop (9 + 1)⟩,
         Event.writeStatus
           ⟨codeResourceExhausted,
            "malformed package and service name: " ++ goQuote "/noservice/Method"⟩,
         Event.tracerFinish none none] ∧
    (streamTask [] "/noservice/Method" InvokeResult.ok (fun e => ⟨13, e⟩) 0).countP
      Event.isInvoke = 0 ∧
    (streamTask [] "/noservice/Method" InvokeResult.ok (fun e => ⟨13, e⟩) 0).countP
      Event.isTracerFinish = 1 :=
  C6_malformed_service "/noservice/Method" 9 (by decide) (by decide) []
    InvokeResult.ok (fun e => ⟨13, e⟩) 0 [] 0 rfl

theorem C8_no_emptiness_validation_witness :
    parseMethodName "a.b/c" = ParseResult.okTriple
      ⟨(stripSlash "a.b/c".data).take 1⟩
      ⟨((stripSlash "a.b/c".data).take 3).drop (1 + 1)⟩
      ⟨(stripSlash "a.b/c".data).drop (3 + 1)⟩ ∧
    parseMethodName "./" = ParseResult.okTriple "" "" "" ∧
    invocationAfter (streamTask [] "./" InvokeResult.ok (fun e => ⟨13, e⟩) 0) =
      ⟨some "", some "", some ""⟩ :=
  C8_no_emptiness_validation "a.b/c" 3 1 (by decide) (by decide)

theorem C9_method_set_on_service_failure_witness :
    streamTask [] "/noservice/Method" (InvokeResult.err "never") (fun e => ⟨13, e⟩) 0 =
      Event.setTransportGRPC :: [] ++
        [Event.tracerStart,
         Event.setMethodName ⟨(stripSlash "/noservice/Method".data).drop (9 + 1)⟩,
         Event.writeStatus
           ⟨codeResourceExhausted,
            "malformed package and service name: " ++ goQuote "/noservice/Method"⟩,
         Event.tracerFinish none none] ∧
    invocationAfter
        (streamTask [] "/noservice/Method" (InvokeResult.err "never")
          (fun e => ⟨13, e⟩) 0) =
      ⟨none, none, some ⟨(stripSlash "/noservice/Method".data).drop (9 + 1)⟩⟩ :=
  C9_method_set_on_service_failure "/noservice/Method" 9 (by decide) (by decide) []
    (InvokeResult.err "never") (fun e => ⟨13, e⟩) 0 [] 0 rfl

end ServerHandler
